import Mathlib

/-!
Verification of the tract-index aggregation and merge pipeline of this
repository (Flask app in `app.py`, local variant in `data/app_local.py`).

The embedding models:
 * column values as `Val` (SQL/pandas `NULL`/`NaN`, `±inf`, or a rational
   number standing for the finite doubles; pandas treats `NaN` as missing,
   and DuckDB's scan of a pandas frame maps `NaN` to SQL `NULL`, so both
   are modelled by `Val.null`; float rounding is out of scope, exact
   rational arithmetic is used),
 * the tract-key normalizer (`pd.to_numeric(errors="coerce")` followed by a
   nullable-Int64 cast, `astype(str)` and `str.strip()`),
 * the DuckDB weighted-sum aggregation of `generate_index` /
   `generate_activity_index`,
 * the pandas row-mean of `generate_residential_index`,
 * the left merge into the shared GeoDataFrame, the generated-column
   registry (`generated_index_columns`), and the request-validation logic
   of the index-generation routes.
-/

/-- A cell value of a data frame / SQL column: missing (`NULL`/`NaN`),
positive or negative infinity, or a finite number (modelled as `ℚ`). -/
inductive Val where
  | null : Val
  | pinf : Val
  | ninf : Val
  | num : ℚ → Val
deriving DecidableEq, Repr

/-- True exactly on the missing value. -/
def Val.isNull : Val → Bool
  | .null => true
  | _ => false

/-- True exactly on finite numbers. -/
def Val.isNum : Val → Bool
  | .num _ => true
  | _ => false

/-- True when the value is not an infinity (missing or finite). -/
def Val.noInf : Val → Bool
  | .pinf => false
  | .ninf => false
  | _ => true

/-- The rational carried by a finite value, defaulting to 0. -/
def Val.toQ : Val → ℚ
  | .num q => q
  | _ => 0

/-- IEEE-style addition as used by SQL `+` on `DOUBLE` and pandas:
missing propagates, `+inf + -inf` is `NaN` (missing). -/
def Val.add : Val → Val → Val
  | .null, _ => .null
  | .pinf, .null => .null
  | .pinf, .pinf => .pinf
  | .pinf, .ninf => .null
  | .pinf, .num _ => .pinf
  | .ninf, .null => .null
  | .ninf, .pinf => .null
  | .ninf, .ninf => .ninf
  | .ninf, .num _ => .ninf
  | .num _, .null => .null
  | .num _, .pinf => .pinf
  | .num _, .ninf => .ninf
  | .num a, .num b => .num (a + b)

/-- IEEE-style multiplication as used by SQL `*` on `DOUBLE`:
missing propagates, `inf * 0` is `NaN` (missing). -/
def Val.mul : Val → Val → Val
  | .null, _ => .null
  | .pinf, .null => .null
  | .pinf, .pinf => .pinf
  | .pinf, .ninf => .ninf
  | .pinf, .num b => if 0 < b then .pinf else if b < 0 then .ninf else .null
  | .ninf, .null => .null
  | .ninf, .pinf => .ninf
  | .ninf, .ninf => .pinf
  | .ninf, .num b => if 0 < b then .ninf else if b < 0 then .pinf else .null
  | .num _, .null => .null
  | .num a, .pinf => if 0 < a then .pinf else if a < 0 then .ninf else .null
  | .num a, .ninf => if 0 < a then .ninf else if a < 0 then .pinf else .null
  | .num a, .num b => .num (a * b)

/-- Division by a (positive, in all uses) row/variable count. -/
def Val.divNat : Val → Nat → Val
  | .null, _ => .null
  | .pinf, _ => .pinf
  | .ninf, _ => .ninf
  | .num a, n => .num (a / (n : ℚ))

/-- The `replace([np.inf, -np.inf], np.nan)` step of `app.py` line 546
(and the `valid_mask` of `app_local.py` line 386): both infinities are
turned into the missing value. -/
def Val.replaceInfWithNull : Val → Val
  | .pinf => .null
  | .ninf => .null
  | v => v

/- ### String helpers

Python string operations are re-implemented structurally over character
lists so that the kernel can evaluate them on concrete inputs. -/

/-- Python `str.strip()` on a character list. -/
def stripChars (cs : List Char) : List Char :=
  ((cs.dropWhile Char.isWhitespace).reverse.dropWhile Char.isWhitespace).reverse

/-- Python `str.strip()`. -/
def pyStrip (s : String) : String :=
  String.mk (stripChars s.toList)

/-- A character matched by Python's regex class `[\w_]` (ASCII model). -/
def isWordChar (c : Char) : Bool :=
  c.isAlphanum || c == '_'

/-- Replaces each maximal run of whitespace by a single underscore,
modelling Python `re.sub(r"\s+", "_", s)`.  The boolean argument records
whether the previous character was whitespace. -/
def subWsAux : List Char → Bool → List Char
  | [], _ => []
  | c :: rest, prevWs =>
    if c.isWhitespace then
      if prevWs then subWsAux rest true
      else '_' :: subWsAux rest true
    else c :: subWsAux rest false

/-- Name cleaning of the index-generation routes (`app.py` line 459,
`app_local.py` lines 317-318): whitespace runs become `_`, then every
character outside `[\w_]` is removed. -/
def sanitizeName (s : String) : String :=
  String.mk ((subWsAux s.toList false).filter isWordChar)

/-- Decimal digit character for `n < 10`. -/
def digitChar (n : Nat) : Char :=
  Char.ofNat (48 + n)

/-- Decimal digits of a natural number, accumulator style with fuel
(structural recursion so the kernel can evaluate it). -/
def natDigitsAux : Nat → Nat → List Char → List Char
  | 0, _, acc => acc
  | fuel + 1, n, acc =>
    if n < 10 then digitChar n :: acc
    else natDigitsAux fuel (n / 10) (digitChar (n % 10) :: acc)

/-- Decimal string of a natural number. -/
def natStr (n : Nat) : String :=
  String.mk (natDigitsAux (n + 1) n [])

/-- String representation of an `Int64` value, as produced by
`astype(str)` on a pandas nullable-integer column. -/
def intStr (i : Int) : String :=
  if i < 0 then String.mk ('-' :: (natStr i.natAbs).toList) else natStr i.natAbs

/-- Value of a nonempty all-digit character list, in base 10. -/
def digitsVal? (cs : List Char) : Option Nat :=
  if cs ≠ [] && cs.all Char.isDigit then
    some (cs.foldl (fun a c => a * 10 + (c.toNat - 48)) 0)
  else none

/-- Numeric parse of a tract identifier, modelling
`pd.to_numeric(errors="coerce")` followed by the cast to the nullable
integer dtype `Int64` (`app.py` lines 182-187 and 535-539,
`app_local.py` lines 159-165 and 373-379): an optional sign, a nonempty
digit run, then optionally a decimal point followed by zeros (the
float-with-trailing-zero representation).  Anything else does not convert
and yields the missing key.  (Non-integral numerics, which would make the
`Int64` cast itself fail and abort the request, are likewise mapped to
the non-convertible case; they do not occur in tract keys.) -/
def parseTract? (s : String) : Option Int :=
  let cs := stripChars s.toList
  let signBody : (Int × List Char) :=
    match cs with
    | '-' :: rest => (-1, rest)
    | '+' :: rest => (1, rest)
    | rest => (1, rest)
  let intPart := signBody.2.takeWhile (fun c => c ≠ '.')
  let fracPart := signBody.2.dropWhile (fun c => c ≠ '.')
  let fracOk : Bool :=
    match fracPart with
    | [] => true
    | _ :: fs => fs.all (fun c => c == '0')
  match digitsVal? intPart with
  | some n => if fracOk then some (signBody.1 * n) else none
  | none => none

/-- The Tract-Key Normalizer: numeric coercion, nullable-Int64 cast,
`astype(str)`, `str.strip()`.  A convertible key becomes its canonical
integer string; a non-convertible key becomes the *string* `"<NA>"`
(this is what `astype(str)` prints for a missing `Int64` entry). -/
def normalizeKey (s : String) : String :=
  match parseTract? s with
  | some n => intStr n
  | none => "<NA>"

/- ### Variable catalog -/

/-- `valid_index_variables_for_selection` (`app.py` lines 311-319,
`app_local.py` lines 109-117), already sorted and deduplicated. -/
def validIndexVariables : List String :=
  ["DSLPM", "OZONE", "PM25", "PNPL", "PRE1960PCT", "PRMP", "PTSDF",
   "bik_length_m", "bike_per_cap", "clinic", "clinic_cap",
   "food_retailer_cap", "healthy_ret_cap", "healthy_retailer",
   "liq_tab_cap", "no_car_rate", "no_high_school_ed",
   "no_high_school_rate", "park_area", "park_per_cap", "pharma",
   "pharma_cap", "poverty_rate", "renter_rate", "sdwalk_length_m",
   "sidewalk_per_cap", "total_no_ins_rate", "total_no_work_rate",
   "unhealthy_ret_cap"]

/-- `clean_col_name`: removes spaces. -/
def cleanColName (s : String) : String :=
  String.mk (s.toList.filter (fun c => c ≠ ' '))

/-- Lookup in `variable_name_map_js_to_backend`: defined exactly for the
members of `validIndexVariables`, where it yields the cleaned name. -/
def backendName? (v : String) : Option String :=
  if v ∈ validIndexVariables then some (cleanColName v) else none

/- ### Visitation (Parquet) table and the activity aggregation -/

/-- One row of the Visitation Table: origin tract key (a string after the
load-time normalization), the `perc_visit` weight, and the per-variable
columns (an association list standing for the row's cells). -/
structure VisRow where
  tract : String
  percVisit : Val
  cols : List (String × Val)
deriving DecidableEq, Repr

/-- The Visitation Table: its schema (column names) and rows. -/
structure VisTable where
  columns : List String
  rows : List VisRow
deriving DecidableEq, Repr

/-- Cell access by column name; a column absent from the row reads as
missing. -/
def getCol (cols : List (String × Val)) (c : String) : Val :=
  match cols with
  | [] => Val.null
  | p :: ps => if p.1 == c then p.2 else getCol ps c

/-- The `WHERE "perc_visit" IS NOT NULL AND "perc_visit" != 0` filter of
the DuckDB query (`app.py` line 510, `app_local.py` line 344). -/
def percVisitValid : Val → Bool
  | .null => false
  | .pinf => true
  | .ninf => true
  | .num q => decide (q ≠ 0)

/-- The per-row SQL expression `z1*w + z2*w + ... + zk*w` built at
`app.py` lines 494-495 (`app_local.py` lines 339-340), evaluated with
SQL null-propagating arithmetic (left-associated sum). -/
def rowExpr (zs : List Val) (w : Val) : Val :=
  match zs.map (fun z => Val.mul z w) with
  | [] => Val.null
  | x :: xs => xs.foldl Val.add x

/-- SQL `SUM` over a column of values: missing entries are skipped; the
sum of an empty or all-missing collection is missing. -/
def sqlSum (l : List Val) : Val :=
  match l.filter (fun v => !v.isNull) with
  | [] => Val.null
  | x :: xs => xs.foldl Val.add x

/-- The distinct group keys of `GROUP BY "Origin_tract"`. -/
def groupKeys (rows : List VisRow) : List String :=
  (rows.map VisRow.tract).dedup

/-- The rows of one group. -/
def groupRows (rows : List VisRow) (t : String) : List VisRow :=
  rows.filter (fun r => r.tract == t)

/-- The aggregation query of `generate_index` / `generate_activity_index`
(`app.py` lines 505-512, `app_local.py` lines 343-345): filter by
`perc_visit`, group by origin tract, and `SUM` the weighted row
expression, yielding `(Origin_tract, total_weighted_sum)` pairs. -/
def activityAggRaw (vis : List VisRow) (zcols : List String) : List (String × Val) :=
  let filtered := vis.filter (fun r => percVisitValid r.percVisit)
  (groupKeys filtered).map (fun t =>
    (t, sqlSum ((groupRows filtered t).map
      (fun r => rowExpr (zcols.map (fun c => getCol r.cols c)) r.percVisit))))

/-- Post-aggregation robust key conversion (`app.py` lines 533-539,
`app_local.py` lines 371-379): each group key goes through the
Tract-Key Normalizer again. -/
def normalizeAggKeys (agg : List (String × Val)) : List (String × Val) :=
  agg.map (fun p => (normalizeKey p.1, p.2))

/-- The final index value for one aggregated sum (`app.py` lines 543-547,
`app_local.py` lines 384-389): coerce infinities to missing, divide by
the number of selected backend variables, scale by 100. -/
def finalizeVal (v : Val) (numVars : Nat) : Val :=
  Val.mul (Val.divNat v.replaceInfWithNull numVars) (Val.num 100)

/-- The `num_vars > 0` guard and per-tract final value computation:
with no variables the column is all missing. -/
def finalizeActivity (agg : List (String × Val)) (numVars : Nat) : List (String × Val) :=
  if 0 < numVars then agg.map (fun p => (p.1, finalizeVal p.2 numVars))
  else agg.map (fun p => (p.1, Val.null))

/-- The whole activity aggregation result handed to the merge:
`(Origin_tract, index value)` pairs. -/
def activityIndexResult (vis : List VisRow) (zcols : List String) : List (String × Val) :=
  finalizeActivity (normalizeAggKeys (activityAggRaw vis zcols)) zcols.length

/- ### Base Geo Table, merge, residential mean -/

/-- One row of the Base Geo Table: its tract key and its cells. -/
structure GeoRow where
  tract : String
  attrs : List (String × Val)
deriving DecidableEq, Repr

/-- The Base Geo Table: schema and rows (geometry and the verified
attribute columns are ordinary cells here). -/
structure GeoTable where
  columns : List String
  rows : List GeoRow
deriving DecidableEq, Repr

/-- Dropping a column from the rows (`global_gdf.drop(columns=[...])`). -/
def dropColRows (rows : List GeoRow) (col : String) : List GeoRow :=
  rows.map (fun r => ⟨r.tract, r.attrs.filter (fun p => p.1 ≠ col)⟩)

/-- Dropping a column from the table. -/
def dropColTable (g : GeoTable) (col : String) : GeoTable :=
  ⟨g.columns.filter (fun c => c ≠ col), dropColRows g.rows col⟩

/-- The merged output rows produced from one base row: one output row per
matching right row (pandas duplicates the base row on several matches),
or a single row with a missing value when nothing matches. -/
def mergeOneRow (right : List (String × Val)) (col : String) (r : GeoRow) : List GeoRow :=
  match right.filter (fun p => p.1 == r.tract) with
  | [] => [⟨r.tract, r.attrs ++ [(col, Val.null)]⟩]
  | ms => ms.map (fun p => ⟨r.tract, r.attrs ++ [(col, p.2)]⟩)

/-- `base.merge(right, on="Origin_tract", how="left")` where `right` has
the key column and one value column named `col`: every base row is kept;
a base row matches every right row with an equal key and gets that row's
value; a base row without a match gets a missing value. -/
def leftMergeRows (base : List GeoRow) (right : List (String × Val)) (col : String) :
    List GeoRow :=
  base.flatMap (mergeOneRow right col)

/-- The value a base key receives from the right table (first match, or
missing when there is none). -/
def matchVal (right : List (String × Val)) (t : String) : Val :=
  match right.filter (fun p => p.1 == t) with
  | [] => Val.null
  | p :: _ => p.2

/-- pandas `DataFrame[cols].mean(axis=1, skipna=True)` for one row:
mean over the non-missing values among the selected cells, missing when
all are missing. -/
def rowMean (vals : List Val) : Val :=
  match vals.filter (fun v => !v.isNull) with
  | [] => Val.null
  | x :: xs => Val.divNat (xs.foldl Val.add x) (xs.length + 1)

/-- The residential index values, one per Base Geo Table row
(`app.py` line 660, `app_local.py` line 565): row mean of the selected
`_zscore_o` columns, times 100.  No infinity coercion happens here. -/
def residentialValues (g : GeoTable) (cols : List String) : List Val :=
  g.rows.map (fun r => Val.mul (rowMean (cols.map (fun c => getCol r.attrs c))) (Val.num 100))

/-- Attaching a freshly computed column at the end of the table
(`global_gdf[index_col_name] = index_values`). -/
def assignColumn (g : GeoTable) (col : String) (vals : List Val) : GeoTable :=
  ⟨g.columns ++ [col],
   (g.rows.zip vals).map (fun p => ⟨p.1.tract, p.1.attrs ++ [(col, p.2)]⟩)⟩

/- ### Registry, application state and routes -/

/-- Removal from the `generated_index_columns` set. -/
def registryRemove (reg : List String) (n : String) : List String :=
  reg.filter (fun m => m ≠ n)

/-- Addition to the `generated_index_columns` set (idempotent, as for a
Python set). -/
def registryAdd (reg : List String) (n : String) : List String :=
  if n ∈ reg then reg else reg ++ [n]

/-- The mutable server state: the Base Geo Table (`global_gdf`), the
Visitation Table (`parquet_df`), and the Index Registry
(`generated_index_columns`).  `none` models a failed load. -/
structure AppState where
  gdf : Option GeoTable
  vis : Option VisTable
  registry : List String
deriving DecidableEq, Repr

/-- An HTTP response: success, or an error with its status code. -/
inductive Resp where
  | ok : Resp
  | err : Nat → Resp
deriving DecidableEq, Repr

/-- The JSON body of an index-generation request. -/
structure GenRequest where
  name : String
  varList : List String
deriving DecidableEq, Repr

/-- The drop-merge-register core shared by the two activity routes
(`app.py` lines 556-592, `app_local.py` lines 401-467): drop an existing
column of the same name (and unregister it), left-merge the aggregation
result onto the base table, register the new column.  The post-merge
`Column missing after merge` check of the sources can never fire for a
merge that adds the column, so it has no error branch here; the row-count
comparison of `app.py` line 579 only prints a warning and changes
nothing. -/
def generateCore (gdf : GeoTable) (vis : VisTable) (reg : List String)
    (col : String) (zcols : List String) : GeoTable × List String :=
  let gdf1 := if col ∈ gdf.columns then dropColTable gdf col else gdf
  let reg1 := if col ∈ gdf.columns then registryRemove reg col else reg
  let result := activityIndexResult vis.rows zcols
  (⟨gdf1.columns ++ [col], leftMergeRows gdf1.rows result col⟩, registryAdd reg1 col)

/-- The `/generate_index` route of `app.py` (`generate_activity_index`,
lines 437-605): data-loaded guard (503), input validation (400s, in
source order: empty name, empty variable list, name sanitizing to empty,
no resolvable variable, missing Parquet columns), then the aggregation,
merge and registration.  The response body (the updated snapshot) is
abstracted to `ok`. -/
def generateActivityIndex (st : AppState) (req : GenRequest) : Resp × AppState :=
  match st.gdf, st.vis with
  | some gdf, some vis =>
    let name := pyStrip req.name
    if name = "" then (Resp.err 400, st)
    else if req.varList = [] then (Resp.err 400, st)
    else
      let cleaned := sanitizeName name
      if cleaned = "" then (Resp.err 400, st)
      else
        let col := cleaned ++ "_ACT"
        let backendVars := req.varList.filterMap backendName?
        if backendVars = [] then (Resp.err 400, st)
        else
          let zcols := backendVars.map (fun b => b ++ "_zscore_d")
          if ¬ (∀ c ∈ zcols, c ∈ vis.columns) then (Resp.err 400, st)
          else if "perc_visit" ∉ vis.columns then (Resp.err 400, st)
          else
            let out := generateCore gdf vis st.registry col zcols
            (Resp.ok, ⟨some out.1, some vis, out.2⟩)
  | _, _ => (Resp.err 503, st)

/-- The `/generate_residential_index` route of `app.py`
(`generate_residential_index`, lines 609-697): data-loaded guard (503),
input validation (400s), variable resolution against the currently
available `_zscore_o` columns, the row mean times 100, drop of an
existing same-named column, assignment and registration. -/
def generateResidentialIndex (st : AppState) (req : GenRequest) : Resp × AppState :=
  match st.gdf with
  | some gdf =>
    let name := pyStrip req.name
    if name = "" then (Resp.err 400, st)
    else if req.varList = [] then (Resp.err 400, st)
    else
      let cleaned := sanitizeName name
      if cleaned = "" then (Resp.err 400, st)
      else
        let col := cleaned ++ "_RES"
        let zcols := req.varList.filterMap (fun v =>
          match backendName? v with
          | none => none
          | some b =>
            if (b ++ "_zscore_o") ∈ gdf.columns then some (b ++ "_zscore_o") else none)
        if zcols = [] then (Resp.err 400, st)
        else
          let colsToAvg := zcols.filter (fun c => c ∈ gdf.columns)
          if colsToAvg = [] then (Resp.err 500, st)
          else
            let vals := residentialValues gdf colsToAvg
            let gdf1 := if col ∈ gdf.columns then dropColTable gdf col else gdf
            let reg1 := if col ∈ gdf.columns then registryRemove st.registry col
                        else st.registry
            (Resp.ok, ⟨some (assignColumn gdf1 col vals), st.vis, registryAdd reg1 col⟩)
  | none => (Resp.err 503, st)

/-- The `/geojson` route of `app.py` (lines 392-427): 503 when the Base
Geo Table is not loaded; the loaded branch (column filtering,
reprojection, serialization) is abstracted to a success response. -/
def geojsonRouteMain (st : AppState) : Resp :=
  match st.gdf with
  | none => Resp.err 503
  | some _ => Resp.ok

/-- The `/geojson` route of `app_local.py` (lines 248-274): the
not-loaded guard answers 500, not 503. -/
def geojsonRouteLocal (st : AppState) : Resp :=
  match st.gdf with
  | none => Resp.err 500
  | some _ => Resp.ok

/-- Re-normalization of the base table's keys just before the merge, as
`app_local.py` lines 410-418 always do. -/
def normalizeBaseKeys (g : GeoTable) : GeoTable :=
  ⟨g.columns, g.rows.map (fun r => ⟨normalizeKey r.tract, r.attrs⟩)⟩

/-- The `/generate_index` route of `app_local.py` (`generate_index`,
lines 283-512).  Differences from the `app.py` route: the not-loaded
guard answers 500 (lines 292-294 for the base table; a failing Parquet
read surfaces as 500 from the query `except` block, lines 354-361);
there is no 400-producing pre-check of the required Parquet columns —
the DuckDB query itself raises a binder error on a missing `_zscore_d`
or `perc_visit` column and the `except` block answers 500, before any
mutation; the base table's keys are re-normalized before the merge. -/
def generateIndexLocal (st : AppState) (req : GenRequest) : Resp × AppState :=
  match st.gdf, st.vis with
  | some gdf, some vis =>
    let name := pyStrip req.name
    if name = "" then (Resp.err 400, st)
    else if req.varList = [] then (Resp.err 400, st)
    else
      let cleaned := sanitizeName name
      if cleaned = "" then (Resp.err 400, st)
      else
        let col := cleaned ++ "_ACT"
        let backendVars := req.varList.filterMap backendName?
        if backendVars = [] then (Resp.err 400, st)
        else
          let zcols := backendVars.map (fun b => b ++ "_zscore_d")
          if ¬ (∀ c ∈ zcols, c ∈ vis.columns) then (Resp.err 500, st)
          else if "perc_visit" ∉ vis.columns then (Resp.err 500, st)
          else
            let result := activityIndexResult vis.rows zcols
            let gdf1 := if col ∈ gdf.columns then dropColTable gdf col else gdf
            let reg1 := if col ∈ gdf.columns then registryRemove st.registry col
                        else st.registry
            let gdf2 := normalizeBaseKeys gdf1
            (Resp.ok,
             ⟨some ⟨gdf2.columns ++ [col], leftMergeRows gdf2.rows result col⟩,
              some vis, registryAdd reg1 col⟩)
  | none, _ => (Resp.err 500, st)
  | some _, none => (Resp.err 500, st)

/-- The `/generate_residential_index` route of `app_local.py`
(lines 516-596): its not-loaded guard answers 500 (line 523); the loaded
branch behaves like the `app.py` one. -/
def generateResidentialIndexLocal (st : AppState) (req : GenRequest) : Resp × AppState :=
  match st.gdf with
  | some _ => generateResidentialIndex st req
  | none => (Resp.err 500, st)

/-- First value stored under a key, if any (the per-key reading of a
two-column key/value frame). -/
def findVal? (l : List (String × Val)) (t : String) : Option Val :=
  match l with
  | [] => none
  | p :: ps => if p.1 == t then some p.2 else findVal? ps t

/- ### Specification-side formulas

These two definitions follow the wording of the specification (spec §4.3)
and are compared against the pipeline definitions above. -/

/-- Spec formula for the activity index of tract `t`: the sum, over
visitation rows of `t` whose weight is non-null and non-zero, of the sum
over the selected variables of `zscore_d * weight`, divided by the count
of selected variables, times 100. -/
def specActivityValue (vis : List VisRow) (zcols : List String) (t : String) : ℚ :=
  ((vis.filter (fun r => percVisitValid r.percVisit && r.tract == t)).map
      (fun r => ((zcols.map (fun c => (getCol r.cols c).toQ)).sum) * r.percVisit.toQ)).sum
    / (zcols.length : ℚ) * 100

/-- Spec formula for the residential index of one row: the mean of the
non-missing selected values (missing when all are missing), times 100. -/
def specResidentialValue (vals : List Val) : Val :=
  let nn := vals.filter (fun v => !v.isNull)
  if nn = [] then Val.null
  else Val.num ((nn.map Val.toQ).sum / (nn.length : ℚ) * 100)

/- ### Helper lemmas -/

theorem Val.isNum_iff {v : Val} : v.isNum = true ↔ ∃ q, v = Val.num q := by
  cases v <;> simp [Val.isNum]

theorem Val.isNum_not_null {v : Val} (h : v.isNum = true) : v.isNull = false := by
  cases v <;> simp_all [Val.isNum, Val.isNull]

theorem Val.add_isNum {a b : Val} (ha : a.isNum = true) (hb : b.isNum = true) :
    (Val.add a b).isNum = true := by
  cases a <;> cases b <;> simp_all [Val.isNum, Val.add]

theorem foldl_add_num (xs : List Val) (a : ℚ) (h : ∀ v ∈ xs, v.isNum = true) :
    xs.foldl Val.add (Val.num a) = Val.num (a + (xs.map Val.toQ).sum) := by
  induction xs generalizing a with
  | nil => simp
  | cons x xs ih =>
    obtain ⟨q, rfl⟩ := Val.isNum_iff.mp (h x (by simp))
    rw [List.foldl_cons,
      show Val.add (Val.num a) (Val.num q) = Val.num (a + q) from rfl,
      ih (a + q) (fun v hv => h v (by simp [hv]))]
    simp only [List.map_cons, List.sum_cons, Val.toQ]
    congr 1
    ring

theorem sqlSum_num (l : List Val) (hne : l ≠ []) (h : ∀ v ∈ l, v.isNum = true) :
    sqlSum l = Val.num ((l.map Val.toQ).sum) := by
  have hfil : l.filter (fun v => !v.isNull) = l :=
    List.filter_eq_self.mpr (fun v hv => by simp [Val.isNum_not_null (h v hv)])
  unfold sqlSum
  rw [hfil]
  cases l with
  | nil => exact absurd rfl hne
  | cons x xs =>
    obtain ⟨q, rfl⟩ := Val.isNum_iff.mp (h x (by simp))
    show List.foldl Val.add (Val.num q) xs = _
    rw [foldl_add_num xs q (fun v hv => h v (by simp [hv]))]
    simp [Val.toQ]

theorem sum_map_mulQ (l : List ℚ) (w : ℚ) :
    (l.map (fun q => q * w)).sum = l.sum * w := by
  induction l with
  | nil => simp
  | cons x xs ih => simp [ih]; ring

theorem rowExpr_num (zs : List Val) (w : ℚ) (hne : zs ≠ [])
    (h : ∀ z ∈ zs, z.isNum = true) :
    rowExpr zs (Val.num w) = Val.num ((zs.map Val.toQ).sum * w) := by
  cases zs with
  | nil => exact absurd rfl hne
  | cons z zs =>
    obtain ⟨q, rfl⟩ := Val.isNum_iff.mp (h z (by simp))
    have hmap : ∀ v ∈ zs.map (fun z => Val.mul z (Val.num w)), v.isNum = true := by
      intro v hv
      obtain ⟨z, hz, rfl⟩ := List.mem_map.mp hv
      obtain ⟨qz, rfl⟩ := Val.isNum_iff.mp (h z (by simp [hz]))
      simp [Val.mul, Val.isNum]
    unfold rowExpr
    rw [List.map_cons]
    show List.foldl Val.add ((Val.num q).mul (Val.num w))
      (zs.map (fun z => z.mul (Val.num w))) = _
    rw [show (Val.num q).mul (Val.num w) = Val.num (q * w) from rfl]
    rw [foldl_add_num _ _ hmap]
    have hcongr : zs.map (fun z => Val.toQ (Val.mul z (Val.num w)))
        = zs.map (fun z => z.toQ * w) := by
      apply List.map_congr_left
      intro z hz
      obtain ⟨qz, rfl⟩ := Val.isNum_iff.mp (h z (by simp [hz]))
      simp [Val.mul, Val.toQ]
    rw [List.map_map]
    simp only [Function.comp_def]
    rw [hcongr]
    have : zs.map (fun z => z.toQ * w) = (zs.map Val.toQ).map (fun q => q * w) := by
      rw [List.map_map]; rfl
    rw [this, sum_map_mulQ]
    simp only [List.map_cons, List.sum_cons, Val.toQ]
    congr 1
    ring

theorem findVal?_map_keys (l : List String) (f : String → Val) (t : String) :
    findVal? (l.map (fun x => (x, f x))) t = if t ∈ l then some (f t) else none := by
  induction l with
  | nil => simp [findVal?]
  | cons x xs ih =>
    by_cases hx : x = t
    · subst hx; simp [findVal?]
    · have hbeq : (x == t) = false := by simp [hx]
      have hx' : ¬t = x := fun hh => hx hh.symm
      simp [findVal?, hbeq, ih, List.mem_cons, hx']

theorem findVal?_map_snd (l : List (String × Val)) (G : Val → Val) (t : String) :
    findVal? (l.map (fun p => (p.1, G p.2))) t = (findVal? l t).map G := by
  induction l with
  | nil => simp [findVal?]
  | cons p ps ih =>
    by_cases hp : p.1 = t
    · simp [findVal?, hp]
    · have : (p.1 == t) = false := by simp [hp]
      simp [findVal?, this, ih]

theorem percVisitValid_num {w : ℚ} : percVisitValid (Val.num w) = true ↔ w ≠ 0 := by
  simp [percVisitValid]

theorem normalizeAggKeys_id (agg : List (String × Val))
    (h : ∀ p ∈ agg, normalizeKey p.1 = p.1) : normalizeAggKeys agg = agg := by
  unfold normalizeAggKeys
  have : agg.map (fun p => (normalizeKey p.1, p.2)) = agg.map (fun p => (p.1, p.2)) :=
    List.map_congr_left (fun p hp => by rw [h p hp])
  simp [this]

theorem finalizeActivity_pos (agg : List (String × Val)) (n : Nat) (hn : 0 < n) :
    finalizeActivity agg n = agg.map (fun p => (p.1, finalizeVal p.2 n)) := by
  simp [finalizeActivity, hn]

theorem finalizeVal_num (s : ℚ) (n : Nat) :
    finalizeVal (Val.num s) n = Val.num (s / (n : ℚ) * 100) := by
  simp [finalizeVal, Val.replaceInfWithNull, Val.divNat, Val.mul]

/- ### C1: activity index weighted-sum formula -/

/-- C1.  For every activity-index aggregation with a non-empty resolved
variable set (over finite weights and z-scores, with load-normalized
tract keys), the value computed for an origin tract equals the sum over
its visitation rows with non-null, non-zero weight of the sum over the
resolved variables of `zscore_d * perc_visit`, divided by the count of
requested resolved variables, times 100. -/
theorem activity_index_weighted_sum_formula
    (vis : List VisRow) (zcols : List String) (t : String)
    (hz : zcols ≠ [])
    (hnorm : ∀ r ∈ vis, normalizeKey r.tract = r.tract)
    (hw : ∀ r ∈ vis, r.percVisit.isNum = true ∨ r.percVisit = Val.null)
    (hfin : ∀ r ∈ vis, percVisitValid r.percVisit = true →
      ∀ c ∈ zcols, (getCol r.cols c).isNum = true)
    (hmem : t ∈ (vis.filter (fun r => percVisitValid r.percVisit)).map VisRow.tract) :
    findVal? (activityIndexResult vis zcols) t
      = some (Val.num (specActivityValue vis zcols t)) := by
  have hn : 0 < zcols.length := List.length_pos.mpr hz
  have hsub : ∀ p ∈ activityAggRaw vis zcols, normalizeKey p.1 = p.1 := by
    intro p hp
    simp only [activityAggRaw, groupKeys] at hp
    obtain ⟨t', ht', rfl⟩ := List.mem_map.mp hp
    have ht'' := List.mem_dedup.mp ht'
    obtain ⟨r, hr, rfl⟩ := List.mem_map.mp ht''
    exact hnorm r (List.mem_of_mem_filter hr)
  unfold activityIndexResult
  rw [normalizeAggKeys_id _ hsub, finalizeActivity_pos _ _ hn,
    findVal?_map_snd (activityAggRaw vis zcols) (fun v => finalizeVal v zcols.length) t]
  have hraw : activityAggRaw vis zcols
      = (groupKeys (vis.filter (fun r => percVisitValid r.percVisit))).map
          (fun t => (t, sqlSum ((groupRows (vis.filter (fun r => percVisitValid r.percVisit)) t).map
            (fun r => rowExpr (zcols.map (fun c => getCol r.cols c)) r.percVisit)))) := rfl
  rw [hraw, findVal?_map_keys]
  have hkey : t ∈ groupKeys (vis.filter (fun r => percVisitValid r.percVisit)) := by
    simp only [groupKeys]
    exact List.mem_dedup.mpr hmem
  rw [if_pos hkey]
  rw [Option.map_some']
  have hgrp : groupRows (vis.filter (fun r => percVisitValid r.percVisit)) t
      = vis.filter (fun r => percVisitValid r.percVisit && r.tract == t) := by
    unfold groupRows
    rw [List.filter_filter]
    apply List.filter_congr
    intro r _
    exact Bool.and_comm _ _
  have hval : ∀ r ∈ vis.filter (fun r => percVisitValid r.percVisit && r.tract == t),
      rowExpr (zcols.map (fun c => getCol r.cols c)) r.percVisit
        = Val.num (((zcols.map (fun c => getCol r.cols c)).map Val.toQ).sum * r.percVisit.toQ) := by
    intro r hr
    have hrmem := List.mem_of_mem_filter hr
    have hcond := (List.mem_filter.mp hr).2
    have hvalid : percVisitValid r.percVisit = true := by
      exact (Bool.and_eq_true_iff.mp hcond).1
    obtain ⟨wq, hwq⟩ := Val.isNum_iff.mp (by
      rcases hw r hrmem with h1 | h1
      · exact h1
      · rw [h1] at hvalid; simp [percVisitValid] at hvalid)
    rw [hwq, rowExpr_num (zcols.map (fun c => getCol r.cols c)) wq
        (by simpa using hz)
        (by
          intro z hzz
          obtain ⟨c, hc, rfl⟩ := List.mem_map.mp hzz
          exact hfin r hrmem hvalid c hc)]
    simp [Val.toQ]
  have hne : (vis.filter (fun r => percVisitValid r.percVisit && r.tract == t)) ≠ [] := by
    obtain ⟨r, hr, hrt⟩ := List.mem_map.mp hmem
    have hrv : r ∈ vis := List.mem_of_mem_filter hr
    have hrc : percVisitValid r.percVisit = true := (List.mem_filter.mp hr).2
    intro hnil
    have : r ∈ vis.filter (fun r => percVisitValid r.percVisit && r.tract == t) := by
      rw [List.mem_filter]
      exact ⟨hrv, by simp [hrc, hrt]⟩
    rw [hnil] at this
    exact absurd this (List.not_mem_nil r)
  rw [hgrp]
  rw [sqlSum_num _ (by
        intro hmapnil
        exact hne (List.map_eq_nil_iff.mp hmapnil))
      (by
        intro v hv
        obtain ⟨r, hr, rfl⟩ := List.mem_map.mp hv
        rw [hval r hr]
        rfl)]
  rw [finalizeVal_num]
  unfold specActivityValue
  congr 1
  congr 1
  congr 1
  congr 1
  congr 1
  rw [List.map_map]
  apply List.map_congr_left
  intro r hr
  simp only [Function.comp_apply, hval r hr, Val.toQ]
  rw [List.map_map]
  rfl

/-- The spec's worked example: one visitation row for tract 1 with weight
2.0 and one selected variable with z-score 1.5. -/
def visExample : List VisRow :=
  [⟨"1", Val.num 2, [("OZONE_zscore_d", Val.num (3/2))]⟩]

unseal Rat.add Rat.mul Rat.inv in
theorem activity_index_weighted_sum_formula_witness :
    (["OZONE_zscore_d"] ≠ ([] : List String))
    ∧ (∀ r ∈ visExample, normalizeKey r.tract = r.tract)
    ∧ (∀ r ∈ visExample, r.percVisit.isNum = true ∨ r.percVisit = Val.null)
    ∧ (∀ r ∈ visExample, percVisitValid r.percVisit = true →
        ∀ c ∈ ["OZONE_zscore_d"], (getCol r.cols c).isNum = true)
    ∧ ("1" ∈ (visExample.filter (fun r => percVisitValid r.percVisit)).map VisRow.tract)
    ∧ findVal? (activityIndexResult visExample ["OZONE_zscore_d"]) "1"
        = some (Val.num (specActivityValue visExample ["OZONE_zscore_d"] "1"))
    ∧ specActivityValue visExample ["OZONE_zscore_d"] "1" = 300 :=
  ⟨by decide, by decide, by decide, by decide, by decide,
    activity_index_weighted_sum_formula visExample ["OZONE_zscore_d"] "1"
      (by decide) (by decide) (by decide) (by decide) (by decide),
    by decide⟩

/- ### C2: residential index mean formula -/

theorem Val.isNum_of_not_null_noInf {v : Val} (h1 : v.noInf = true)
    (h2 : v.isNull = false) : v.isNum = true := by
  cases v <;> simp_all [Val.isNull, Val.noInf, Val.isNum]

theorem residential_row_value (vals : List Val) (h : ∀ v ∈ vals, v.noInf = true) :
    Val.mul (rowMean vals) (Val.num 100) = specResidentialValue vals := by
  unfold rowMean specResidentialValue
  cases hnn : vals.filter (fun v => !v.isNull) with
  | nil => simp [Val.mul]
  | cons x xs =>
    have hmem : ∀ v ∈ x :: xs, v.isNum = true := by
      intro v hv
      have hvf : v ∈ vals.filter (fun v => !v.isNull) := hnn ▸ hv
      have h2 := List.mem_filter.mp hvf
      exact Val.isNum_of_not_null_noInf (h v h2.1) (by simpa using h2.2)
    obtain ⟨q, hq⟩ := Val.isNum_iff.mp (hmem x (by simp))
    subst hq
    show ((List.foldl Val.add (Val.num q) xs).divNat (xs.length + 1)).mul (Val.num 100)
      = if (Val.num q :: xs : List Val) = [] then Val.null
        else Val.num ((List.map Val.toQ (Val.num q :: xs)).sum
            / (((Val.num q :: xs : List Val).length : Nat) : ℚ) * 100)
    rw [foldl_add_num xs q (fun v hv => hmem v (by simp [hv]))]
    simp only [Val.divNat, Val.mul, List.map_cons, List.sum_cons, Val.toQ,
      List.length_cons, reduceCtorEq, if_false]

/-- C2.  For every residential-index computation over infinity-free data,
the value for each Base Geo Table row is the arithmetic mean of the
row's non-missing selected `_zscore_o` values (missing if all are
missing; the denominator is the per-row count of non-missing selected
columns), multiplied by 100. -/
theorem residential_index_mean_formula (g : GeoTable) (cols : List String)
    (h : ∀ r ∈ g.rows, ∀ c ∈ cols, (getCol r.attrs c).noInf = true) :
    residentialValues g cols
      = g.rows.map (fun r => specResidentialValue (cols.map (fun c => getCol r.attrs c))) := by
  unfold residentialValues
  apply List.map_congr_left
  intro r hr
  apply residential_row_value
  intro v hv
  obtain ⟨c, hc, rfl⟩ := List.mem_map.mp hv
  exact h r hr c hc

/-- The spec's worked example: one tract row with two selected
residential columns holding 0.2 and null. -/
def gdfExample : GeoTable :=
  ⟨["Origin_tract", "poverty_rate_zscore_o", "no_car_rate_zscore_o"],
   [⟨"1", [("poverty_rate_zscore_o", Val.num (1/5)), ("no_car_rate_zscore_o", Val.null)]⟩]⟩

unseal Rat.add Rat.mul Rat.inv in
theorem residential_index_mean_formula_witness :
    (∀ r ∈ gdfExample.rows, ∀ c ∈ ["poverty_rate_zscore_o", "no_car_rate_zscore_o"],
        (getCol r.attrs c).noInf = true)
    ∧ residentialValues gdfExample ["poverty_rate_zscore_o", "no_car_rate_zscore_o"]
        = gdfExample.rows.map (fun r => specResidentialValue
            (["poverty_rate_zscore_o", "no_car_rate_zscore_o"].map (fun c => getCol r.attrs c)))
    ∧ residentialValues gdfExample ["poverty_rate_zscore_o", "no_car_rate_zscore_o"]
        = [Val.num 20] :=
  ⟨by decide,
   residential_index_mean_formula gdfExample
     ["poverty_rate_zscore_o", "no_car_rate_zscore_o"] (by decide),
   by decide⟩

theorem Val.add_noInf {a b : Val} (ha : a.noInf = true) (hb : b.noInf = true) :
    (Val.add a b).noInf = true := by
  cases a <;> cases b <;> simp_all [Val.noInf, Val.add]

theorem Val.add_null_iff {a b : Val} (ha : a.noInf = true) (hb : b.noInf = true) :
    Val.add a b = Val.null ↔ a = Val.null ∨ b = Val.null := by
  cases a <;> cases b <;> simp_all [Val.noInf, Val.add]

theorem foldl_add_null_iff (x : Val) (xs : List Val)
    (h : ∀ v ∈ x :: xs, v.noInf = true) :
    xs.foldl Val.add x = Val.null ↔ Val.null ∈ x :: xs := by
  induction xs generalizing x with
  | nil => simp [eq_comm]
  | cons y ys ih =>
    have hx : x.noInf = true := h x (by simp)
    have hy : y.noInf = true := h y (by simp)
    have hxy : (Val.add x y).noInf = true := Val.add_noInf hx hy
    rw [List.foldl_cons,
      ih (Val.add x y) (by
        intro v hv
        rcases List.mem_cons.mp hv with rfl | hv
        · exact hxy
        · exact h v (by simp [hv]))]
    simp only [List.mem_cons]
    rw [show (Val.null = Val.add x y) ↔ (Val.add x y = Val.null) from eq_comm,
      Val.add_null_iff hx hy]
    constructor
    · rintro ((h1 | h1) | h1)
      · exact Or.inl h1.symm
      · exact Or.inr (Or.inl h1.symm)
      · exact Or.inr (Or.inr h1)
    · rintro (h1 | h1 | h1)
      · exact Or.inl (Or.inl h1.symm)
      · exact Or.inl (Or.inr h1.symm)
      · exact Or.inr h1

theorem Val.mul_num_null_iff {z : Val} {w : ℚ} (hz : z.noInf = true) :
    (Val.mul z (Val.num w) = Val.null ↔ z = Val.null)
    ∧ (Val.mul z (Val.num w)).noInf = true := by
  cases z <;> simp_all [Val.noInf, Val.mul]

/-- C10.  In the weighted-sum activity aggregation over infinity-free
data, the per-row SQL expression is non-null exactly when every selected
z-score column is non-null in that row (a single null z-score nullifies
the whole row expression), and SQL `SUM` ignores null rows, so such a
row contributes nothing for any of the variables. -/
theorem null_zscore_row_contribution
    (cols : List (String × Val)) (zcols : List String) (w : ℚ)
    (hz : zcols ≠ []) (hw : w ≠ 0)
    (hni : ∀ c ∈ zcols, (getCol cols c).noInf = true) :
    (rowExpr (zcols.map (fun c => getCol cols c)) (Val.num w) ≠ Val.null
      ↔ ∀ c ∈ zcols, getCol cols c ≠ Val.null)
    ∧ (∀ l : List Val, sqlSum l = sqlSum (l.filter (fun v => !v.isNull))) := by
  constructor
  · cases zcols with
    | nil => exact absurd rfl hz
    | cons c cs =>
      unfold rowExpr
      rw [List.map_cons, List.map_cons]
      show List.foldl Val.add ((getCol cols c).mul (Val.num w))
        ((cs.map (fun c => getCol cols c)).map (fun z => z.mul (Val.num w))) ≠ Val.null ↔ _
      rw [not_iff_comm]
      rw [foldl_add_null_iff _ _ (by
        intro v hv
        rcases List.mem_cons.mp hv with rfl | hv
        · exact (Val.mul_num_null_iff (hni c (by simp))).2
        · obtain ⟨z, hzz, rfl⟩ := List.mem_map.mp hv
          obtain ⟨c', hc', rfl⟩ := List.mem_map.mp hzz
          exact (Val.mul_num_null_iff (hni c' (by simp [hc']))).2)]
      have hm : Val.null ∈ ((getCol cols c).mul (Val.num w))
            :: ((cs.map (fun c => getCol cols c)).map (fun z => z.mul (Val.num w)))
          ↔ ∃ c' ∈ (c :: cs : List String), getCol cols c' = Val.null := by
        constructor
        · intro h1
          rcases List.mem_cons.mp h1 with h2 | h2
          · exact ⟨c, by simp,
              ((Val.mul_num_null_iff (hni c (by simp))).1).mp h2.symm⟩
          · obtain ⟨z, hzz, hznull⟩ := List.mem_map.mp h2
            obtain ⟨c', hc', rfl⟩ := List.mem_map.mp hzz
            exact ⟨c', by simp [hc'],
              ((Val.mul_num_null_iff (hni c' (by simp [hc']))).1).mp hznull⟩
        · rintro ⟨c', hc', hnull⟩
          rcases List.mem_cons.mp hc' with rfl | hc'
          · exact List.mem_cons.mpr (Or.inl (by rw [hnull]; rfl))
          · refine List.mem_cons.mpr (Or.inr (List.mem_map.mpr
              ⟨getCol cols c', List.mem_map.mpr ⟨c', hc', rfl⟩, by rw [hnull]; rfl⟩))
      rw [hm]
      push_neg
      rfl
  · intro l
    unfold sqlSum
    rw [List.filter_eq_self.mpr (fun a ha => (List.mem_filter.mp ha).2)]

theorem null_zscore_row_contribution_witness :
    ((["OZONE_zscore_d", "PM25_zscore_d"] : List String) ≠ [])
    ∧ ((1 : ℚ) ≠ 0)
    ∧ (∀ c ∈ ["OZONE_zscore_d", "PM25_zscore_d"],
        (getCol [("OZONE_zscore_d", Val.num 1)] c).noInf = true)
    ∧ ((rowExpr (["OZONE_zscore_d", "PM25_zscore_d"].map
          (fun c => getCol [("OZONE_zscore_d", Val.num 1)] c)) (Val.num 1) ≠ Val.null
        ↔ ∀ c ∈ ["OZONE_zscore_d", "PM25_zscore_d"],
            getCol [("OZONE_zscore_d", Val.num 1)] c ≠ Val.null)
      ∧ (∀ l : List Val, sqlSum l = sqlSum (l.filter (fun v => !v.isNull)))) :=
  ⟨by decide, by decide, by decide,
   null_zscore_row_contribution [("OZONE_zscore_d", Val.num 1)]
     ["OZONE_zscore_d", "PM25_zscore_d"] 1 (by decide) (by decide) (by decide)⟩

theorem mergeOneRow_no_match (right : List (String × Val)) (col : String) (r : GeoRow)
    (h : r.tract ∉ right.map Prod.fst) :
    mergeOneRow right col r = [⟨r.tract, r.attrs ++ [(col, Val.null)]⟩] := by
  unfold mergeOneRow
  have hfil : right.filter (fun p => p.1 == r.tract) = [] := by
    rw [List.filter_eq_nil_iff]
    intro p hp
    simp only [beq_iff_eq]
    intro hpt
    exact h (List.mem_map.mpr ⟨p, hp, hpt⟩)
  rw [hfil]

theorem activityIndexResult_keys_subset (vis : List VisRow) (zcols : List String)
    (t : String) (h : t ∈ (activityIndexResult vis zcols).map Prod.fst) :
    t ∈ vis.map (fun r => normalizeKey r.tract) := by
  unfold activityIndexResult finalizeActivity at h
  have h2 : t ∈ (normalizeAggKeys (activityAggRaw vis zcols)).map Prod.fst := by
    by_cases hn : 0 < zcols.length <;> simp_all [List.map_map, Function.comp_def]
  unfold normalizeAggKeys at h2
  rw [List.map_map] at h2
  obtain ⟨p, hp, rfl⟩ := List.mem_map.mp h2
  simp only [activityAggRaw, groupKeys] at hp
  obtain ⟨t', ht', rfl⟩ := List.mem_map.mp hp
  have ht'' := List.mem_dedup.mp ht'
  obtain ⟨r, hr, rfl⟩ := List.mem_map.mp ht''
  exact List.mem_map.mpr ⟨r, List.mem_of_mem_filter hr, rfl⟩

/-- C4.  The merge step has left-join semantics: every Base Geo Table
row survives the merge of an activity aggregation result (its key and
its previous cells intact, with the new column appended), and a row
whose tract occurs nowhere in the Visitation Table (even after key
normalization) receives null for the newly generated activity-index
column. -/
theorem left_merge_preserves_rows_and_nulls_unmatched
    (base : List GeoRow) (vis : List VisRow) (zcols : List String) (col : String)
    (r : GeoRow) (hr : r ∈ base) :
    (∃ out ∈ leftMergeRows base (activityIndexResult vis zcols) col,
        out.tract = r.tract ∧ ∃ tail, out.attrs = r.attrs ++ tail)
    ∧ (r.tract ∉ vis.map (fun v => normalizeKey v.tract) →
        GeoRow.mk r.tract (r.attrs ++ [(col, Val.null)])
          ∈ leftMergeRows base (activityIndexResult vis zcols) col) := by
  constructor
  · unfold leftMergeRows
    cases hfil : (activityIndexResult vis zcols).filter (fun p => p.1 == r.tract) with
    | nil =>
      refine ⟨⟨r.tract, r.attrs ++ [(col, Val.null)]⟩,
        List.mem_flatMap.mpr ⟨r, hr, ?_⟩, rfl, [(col, Val.null)], rfl⟩
      unfold mergeOneRow
      rw [hfil]
      simp
    | cons p ps =>
      refine ⟨⟨r.tract, r.attrs ++ [(col, p.2)]⟩,
        List.mem_flatMap.mpr ⟨r, hr, ?_⟩, rfl, [(col, p.2)], rfl⟩
      unfold mergeOneRow
      rw [hfil]
      exact List.mem_map.mpr ⟨p, by simp, rfl⟩
  · intro habs
    have hnm : r.tract ∉ (activityIndexResult vis zcols).map Prod.fst := by
      intro hmem
      exact habs (activityIndexResult_keys_subset vis zcols r.tract hmem)
    unfold leftMergeRows
    exact List.mem_flatMap.mpr ⟨r, hr, by
      rw [mergeOneRow_no_match _ _ _ hnm]
      simp⟩

theorem left_merge_preserves_rows_and_nulls_unmatched_witness :
    ((⟨"7", [("geometry", Val.num 0)]⟩ : GeoRow) ∈ [(⟨"7", [("geometry", Val.num 0)]⟩ : GeoRow)])
    ∧ ((∃ out ∈ leftMergeRows [(⟨"7", [("geometry", Val.num 0)]⟩ : GeoRow)]
          (activityIndexResult visExample ["OZONE_zscore_d"]) "My_ACT",
          out.tract = "7" ∧ ∃ tail, out.attrs = [("geometry", Val.num 0)] ++ tail)
        ∧ ("7" ∉ visExample.map (fun v => normalizeKey v.tract) →
            GeoRow.mk "7" ([("geometry", Val.num 0)] ++ [("My_ACT", Val.null)])
              ∈ leftMergeRows [(⟨"7", [("geometry", Val.num 0)]⟩ : GeoRow)]
                  (activityIndexResult visExample ["OZONE_zscore_d"]) "My_ACT"))
    ∧ GeoRow.mk "7" ([("geometry", Val.num 0)] ++ [("My_ACT", Val.null)])
        ∈ leftMergeRows [(⟨"7", [("geometry", Val.num 0)]⟩ : GeoRow)]
            (activityIndexResult visExample ["OZONE_zscore_d"]) "My_ACT" :=
  ⟨by decide,
   left_merge_preserves_rows_and_nulls_unmatched
     [(⟨"7", [("geometry", Val.num 0)]⟩ : GeoRow)] visExample ["OZONE_zscore_d"] "My_ACT"
     (⟨"7", [("geometry", Val.num 0)]⟩ : GeoRow) (by decide),
   (left_merge_preserves_rows_and_nulls_unmatched
     [(⟨"7", [("geometry", Val.num 0)]⟩ : GeoRow)] visExample ["OZONE_zscore_d"] "My_ACT"
     (⟨"7", [("geometry", Val.num 0)]⟩ : GeoRow) (by decide)).2 (by decide)⟩

theorem mergeOneRow_of_nodup (right : List (String × Val)) (col : String) (r : GeoRow)
    (hnd : (right.map Prod.fst).Nodup) :
    mergeOneRow right col r = [⟨r.tract, r.attrs ++ [(col, matchVal right r.tract)]⟩] := by
  unfold mergeOneRow matchVal
  cases hfil : right.filter (fun p => p.1 == r.tract) with
  | nil => rfl
  | cons p ps =>
    have hpmem : p ∈ right.filter (fun p => p.1 == r.tract) := by rw [hfil]; simp
    have hpk : p.1 = r.tract := by
      have := (List.mem_filter.mp hpmem).2
      simpa using this
    have hps : ps = [] := by
      cases ps with
      | nil => rfl
      | cons q qs =>
        exfalso
        have hsub : (right.filter (fun p => p.1 == r.tract)).Sublist right :=
          List.filter_sublist right
        have hndf : ((right.filter (fun p => p.1 == r.tract)).map Prod.fst).Nodup :=
          List.Nodup.sublist (List.Sublist.map Prod.fst hsub) hnd
        rw [hfil] at hndf
        have hqmem : q ∈ right.filter (fun p => p.1 == r.tract) := by rw [hfil]; simp
        have hqk : q.1 = r.tract := by
          have := (List.mem_filter.mp hqmem).2
          simpa using this
        simp only [List.map_cons, List.nodup_cons] at hndf
        exact hndf.1 (by
          rw [hpk]
          exact List.mem_cons.mpr (Or.inl hqk.symm))
    subst hps
    simp [hpk]

theorem leftMergeRows_of_nodup (base : List GeoRow) (right : List (String × Val))
    (col : String) (hnd : (right.map Prod.fst).Nodup) :
    leftMergeRows base right col
      = base.map (fun r => ⟨r.tract, r.attrs ++ [(col, matchVal right r.tract)]⟩) := by
  unfold leftMergeRows
  induction base with
  | nil => rfl
  | cons r rs ih =>
    rw [List.flatMap_cons, ih, mergeOneRow_of_nodup right col r hnd, List.map_cons]
    rfl

theorem dropColRows_append_col (rows : List GeoRow) (col : String) (f : GeoRow → Val) :
    dropColRows (rows.map (fun r => ⟨r.tract, r.attrs ++ [(col, f r)]⟩)) col
      = dropColRows rows col := by
  unfold dropColRows
  rw [List.map_map]
  apply List.map_congr_left
  intro r _
  simp [List.filter_append]

theorem dropColRows_idem (rows : List GeoRow) (col : String) :
    dropColRows (dropColRows rows col) col = dropColRows rows col := by
  unfold dropColRows
  rw [List.map_map]
  apply List.map_congr_left
  intro r _
  simp only [Function.comp_apply]
  congr 1
  exact List.filter_eq_self.mpr (fun a ha => (List.mem_filter.mp ha).2)

theorem dropColRows_of_wf (rows : List GeoRow) (col : String)
    (h : ∀ r ∈ rows, ∀ p ∈ r.attrs, p.1 ≠ col) :
    dropColRows rows col = rows := by
  unfold dropColRows
  have hmap : rows.map (fun r => (⟨r.tract, r.attrs.filter (fun p => p.1 ≠ col)⟩ : GeoRow))
      = rows.map (fun r => r) := by
    apply List.map_congr_left
    intro r hr
    have hfil : r.attrs.filter (fun p => p.1 ≠ col) = r.attrs :=
      List.filter_eq_self.mpr (fun p hp => by simpa using h r hr p hp)
    show (⟨r.tract, r.attrs.filter (fun p => p.1 ≠ col)⟩ : GeoRow) = r
    rw [hfil]
  rw [hmap, List.map_id']

theorem count_filter_ne (l : List String) (col : String) :
    (l.filter (fun c => c ≠ col)).count col = 0 := by
  rw [List.count_eq_zero]
  intro hmem
  have := (List.mem_filter.mp hmem).2
  simp at this

theorem filter_ne_of_not_mem (l : List String) (col : String) (h : col ∉ l) :
    l.filter (fun c => c ≠ col) = l :=
  List.filter_eq_self.mpr (fun c hcl => by
    simp only [ne_eq, decide_not, Bool.not_eq_eq_eq_not, Bool.not_true, decide_eq_false_iff_not]
    rintro rfl
    exact h hcl)

theorem filter_ne_idem (l : List String) (col : String) :
    (l.filter (fun c => c ≠ col)).filter (fun c => c ≠ col) = l.filter (fun c => c ≠ col) :=
  List.filter_eq_self.mpr (fun a ha => (List.mem_filter.mp ha).2)

theorem generateCore_idem (g : GeoTable) (vis : VisTable) (reg : List String)
    (col : String) (zcols : List String)
    (hwf : ∀ r ∈ g.rows, ∀ p ∈ r.attrs, p.1 ∈ g.columns)
    (hsync : col ∈ reg → col ∈ g.columns)
    (hnd : ((activityIndexResult vis.rows zcols).map Prod.fst).Nodup) :
    generateCore (generateCore g vis reg col zcols).1 vis
        (generateCore g vis reg col zcols).2 col zcols
      = generateCore g vis reg col zcols
    ∧ (generateCore g vis reg col zcols).1.columns.count col = 1
    ∧ (generateCore g vis reg col zcols).2.count col = 1 := by
  by_cases hc : col ∈ g.columns
  · -- the first generation drops the pre-existing column
    have e1 : generateCore g vis reg col zcols
        = (⟨(g.columns.filter (fun c => c ≠ col)) ++ [col],
            leftMergeRows (dropColRows g.rows col) (activityIndexResult vis.rows zcols) col⟩,
           (reg.filter (fun m => m ≠ col)) ++ [col]) := by
      have : col ∉ reg.filter (fun m => m ≠ col) := by
        intro hmem
        have := (List.mem_filter.mp hmem).2
        simp at this
      simp [generateCore, hc, dropColTable, registryRemove, registryAdd, this]
    rw [e1]
    have hF1 : ∀ r ∈ dropColRows g.rows col, ∀ p ∈ r.attrs, p.1 ≠ col := by
      intro r hr p hp
      unfold dropColRows at hr
      obtain ⟨r0, _, rfl⟩ := List.mem_map.mp hr
      have := (List.mem_filter.mp hp).2
      simpa using this
    have hF2 : col ∉ g.columns.filter (fun c => c ≠ col) := by
      intro hmem
      have := (List.mem_filter.mp hmem).2
      simp at this
    have hcol1 : col ∈ (g.columns.filter (fun c => c ≠ col)) ++ [col] := by simp
    constructor
    · have e2cols : ((g.columns.filter (fun c => c ≠ col)) ++ [col]).filter (fun c => c ≠ col)
          = g.columns.filter (fun c => c ≠ col) := by
        rw [List.filter_append, filter_ne_idem]
        simp
      have e2rows : dropColRows
            (leftMergeRows (dropColRows g.rows col) (activityIndexResult vis.rows zcols) col) col
          = dropColRows g.rows col := by
        rw [leftMergeRows_of_nodup _ _ _ hnd, dropColRows_append_col,
          dropColRows_of_wf _ _ hF1]
      have hreg2 : col ∉ (reg.filter (fun m => m ≠ col)) := by
        intro hmem
        have := (List.mem_filter.mp hmem).2
        simp at this
      simp only [generateCore, hcol1, if_pos, dropColTable, registryRemove, registryAdd]
      rw [e2cols, e2rows]
      have : ((reg.filter (fun m => m ≠ col)) ++ [col]).filter (fun m => m ≠ col)
          = reg.filter (fun m => m ≠ col) := by
        rw [List.filter_append, filter_ne_idem]
        simp
      rw [this]
      simp [hreg2]
    constructor
    · simp only [List.count_append, count_filter_ne]
      simp
    · simp only [List.count_append]
      have : (reg.filter (fun m => m ≠ col)).count col = 0 := by
        rw [List.count_eq_zero]
        intro hmem
        have := (List.mem_filter.mp hmem).2
        simp at this
      rw [this]
      simp
  · -- no pre-existing column: the base table is untouched before the merge
    have hnreg : col ∉ reg := fun h => hc (hsync h)
    have e1 : generateCore g vis reg col zcols
        = (⟨g.columns ++ [col],
            leftMergeRows g.rows (activityIndexResult vis.rows zcols) col⟩,
           reg ++ [col]) := by
      simp [generateCore, hc, registryAdd, hnreg]
    rw [e1]
    have hF1 : ∀ r ∈ g.rows, ∀ p ∈ r.attrs, p.1 ≠ col := by
      intro r hr p hp
      intro hEq
      exact hc (hEq ▸ hwf r hr p hp)
    have hcol1 : col ∈ g.columns ++ [col] := by simp
    constructor
    · have e2cols : (g.columns ++ [col]).filter (fun c => c ≠ col) = g.columns := by
        rw [List.filter_append, filter_ne_of_not_mem _ _ hc]
        simp
      have e2rows : dropColRows
            (leftMergeRows g.rows (activityIndexResult vis.rows zcols) col) col
          = g.rows := by
        rw [leftMergeRows_of_nodup _ _ _ hnd, dropColRows_append_col,
          dropColRows_of_wf _ _ hF1]
      simp only [generateCore, hcol1, if_pos, dropColTable, registryRemove, registryAdd]
      rw [e2cols, e2rows]
      have : (reg ++ [col]).filter (fun m => m ≠ col) = reg := by
        rw [List.filter_append, filter_ne_of_not_mem _ _ hnreg]
        simp
      rw [this]
      simp [hnreg]
    constructor
    · simp only [List.count_append, List.count_eq_zero.mpr hc]
      simp
    · simp only [List.count_append, List.count_eq_zero.mpr hnreg]
      simp

theorem generateActivityIndex_err_state (st : AppState) (req : GenRequest)
    (hne : (generateActivityIndex st req).1 ≠ Resp.ok) :
    (generateActivityIndex st req).2 = st := by
  cases st with
  | mk gdf vis reg =>
    cases gdf with
    | none => rfl
    | some g =>
      cases vis with
      | none => rfl
      | some v =>
        simp only [generateActivityIndex] at hne ⊢
        split_ifs at hne ⊢ <;> first | rfl | exact absurd rfl hne

/-- C5.  Regenerating an activity index under the same sanitized name is
idempotent: running the `/generate_index` route twice with the same
request leaves the state of the first run unchanged (the prior column and
registry entry are dropped and replaced by an identical fresh
computation), and after a successful run the Base Geo Table holds exactly
one column of that name and the Index Registry exactly one entry.
Hypotheses: row cells only use declared columns, the registry only names
existing columns (the spec's registry-sync invariant), and the
aggregation result has no duplicate keys after normalization. -/
theorem activity_regeneration_idempotent
    (g : GeoTable) (v : VisTable) (reg : List String) (req : GenRequest)
    (hwf : ∀ r ∈ g.rows, ∀ p ∈ r.attrs, p.1 ∈ g.columns)
    (hsync : sanitizeName (pyStrip req.name) ++ "_ACT" ∈ reg →
        sanitizeName (pyStrip req.name) ++ "_ACT" ∈ g.columns)
    (hnd : ((activityIndexResult v.rows
        ((req.varList.filterMap backendName?).map (fun b => b ++ "_zscore_d"))).map
        Prod.fst).Nodup) :
    ((generateActivityIndex
        (generateActivityIndex ⟨some g, some v, reg⟩ req).2 req).2
      = (generateActivityIndex ⟨some g, some v, reg⟩ req).2)
    ∧ ((generateActivityIndex ⟨some g, some v, reg⟩ req).1 = Resp.ok →
        ∃ g1, (generateActivityIndex ⟨some g, some v, reg⟩ req).2.gdf = some g1
          ∧ g1.columns.count (sanitizeName (pyStrip req.name) ++ "_ACT") = 1
          ∧ (generateActivityIndex ⟨some g, some v, reg⟩ req).2.registry.count
              (sanitizeName (pyStrip req.name) ++ "_ACT") = 1) := by
  by_cases hok : (generateActivityIndex ⟨some g, some v, reg⟩ req).1 = Resp.ok
  · -- invert the validation checks from the success of the first request
    have h1 : ¬ pyStrip req.name = "" := by
      intro h; simp [generateActivityIndex, h] at hok
    have h2 : ¬ req.varList = [] := by
      intro h; simp [generateActivityIndex, h1, h] at hok
    have h3 : ¬ sanitizeName (pyStrip req.name) = "" := by
      intro h; simp [generateActivityIndex, h1, h2, h] at hok
    have h4 : ¬ req.varList.filterMap backendName? = [] := by
      intro h; simp [generateActivityIndex, h1, h2, h3, h] at hok
    have h5 : ∀ c ∈ (req.varList.filterMap backendName?).map
        (fun b => b ++ "_zscore_d"), c ∈ v.columns := by
      by_contra h
      simp [generateActivityIndex, h1, h2, h3, h4] at hok
      rw [if_neg h] at hok
      simp at hok
    have h6 : "perc_visit" ∈ v.columns := by
      by_contra h
      simp [generateActivityIndex, h1, h2, h3, h4] at hok
      rw [if_pos h5, if_neg h] at hok
      simp at hok
    have hidem := generateCore_idem g v reg (sanitizeName (pyStrip req.name) ++ "_ACT")
      ((req.varList.filterMap backendName?).map (fun b => b ++ "_zscore_d"))
      hwf hsync hnd
    have e1 : generateActivityIndex ⟨some g, some v, reg⟩ req
        = (Resp.ok,
           ⟨some (generateCore g v reg (sanitizeName (pyStrip req.name) ++ "_ACT")
              ((req.varList.filterMap backendName?).map (fun b => b ++ "_zscore_d"))).1,
            some v,
            (generateCore g v reg (sanitizeName (pyStrip req.name) ++ "_ACT")
              ((req.varList.filterMap backendName?).map (fun b => b ++ "_zscore_d"))).2⟩) := by
      simp [generateActivityIndex, h1, h2, h3, h4]
      rw [if_pos h5, if_pos h6]
    constructor
    · rw [e1]
      simp [generateActivityIndex, h1, h2, h3, h4]
      rw [if_pos h5, if_pos h6]
      simp [hidem.1]
    · intro _
      rw [e1]
      exact ⟨_, rfl, hidem.2.1, hidem.2.2⟩
  · have hst := generateActivityIndex_err_state _ _ hok
    constructor
    · rw [hst]
      exact hst
    · intro h; exact absurd h hok

/-- A small loaded state for exercising the activity route. -/
def gdfIdemExample : GeoTable := ⟨["Origin_tract"], [⟨"1", []⟩]⟩

/-- A one-row Visitation Table with the `OZONE_zscore_d` column. -/
def visTableExample : VisTable :=
  ⟨["Origin_tract", "perc_visit", "OZONE_zscore_d"],
   [⟨"1", Val.num 1, [("OZONE_zscore_d", Val.num 1)]⟩]⟩

/-- A valid generation request. -/
def reqExample : GenRequest := ⟨"My Index", ["OZONE"]⟩

unseal Rat.add Rat.mul Rat.inv in
theorem activity_regeneration_idempotent_witness :
    (∀ r ∈ gdfIdemExample.rows, ∀ p ∈ r.attrs, p.1 ∈ gdfIdemExample.columns)
    ∧ (sanitizeName (pyStrip reqExample.name) ++ "_ACT" ∈ ([] : List String) →
        sanitizeName (pyStrip reqExample.name) ++ "_ACT" ∈ gdfIdemExample.columns)
    ∧ ((activityIndexResult visTableExample.rows
        ((reqExample.varList.filterMap backendName?).map (fun b => b ++ "_zscore_d"))).map
        Prod.fst).Nodup
    ∧ (((generateActivityIndex
          (generateActivityIndex ⟨some gdfIdemExample, some visTableExample, []⟩ reqExample).2
          reqExample).2
        = (generateActivityIndex ⟨some gdfIdemExample, some visTableExample, []⟩ reqExample).2)
      ∧ ((generateActivityIndex ⟨some gdfIdemExample, some visTableExample, []⟩ reqExample).1
            = Resp.ok →
          ∃ g1, (generateActivityIndex
              ⟨some gdfIdemExample, some visTableExample, []⟩ reqExample).2.gdf = some g1
            ∧ g1.columns.count (sanitizeName (pyStrip reqExample.name) ++ "_ACT") = 1
            ∧ (generateActivityIndex
                ⟨some gdfIdemExample, some visTableExample, []⟩ reqExample).2.registry.count
                (sanitizeName (pyStrip reqExample.name) ++ "_ACT") = 1)) :=
  ⟨by decide, by decide, by decide,
   activity_regeneration_idempotent gdfIdemExample visTableExample [] reqExample
     (by decide) (by decide) (by decide)⟩

/- ### C8: invalid input returns 400 and mutates nothing -/

/-- C8.  For a loaded state, an index-generation request (activity or
residential) whose variable list is empty, or whose name strips to empty
or sanitizes to empty, is answered with HTTP 400 and leaves the whole
state (Base Geo Table, Visitation Table and Index Registry) unchanged. -/
theorem invalid_input_returns_400_without_mutation
    (g : GeoTable) (v : VisTable) (reg : List String) (req : GenRequest)
    (h : req.varList = [] ∨ pyStrip req.name = "" ∨ sanitizeName (pyStrip req.name) = "") :
    generateActivityIndex ⟨some g, some v, reg⟩ req
        = (Resp.err 400, ⟨some g, some v, reg⟩)
    ∧ generateResidentialIndex ⟨some g, some v, reg⟩ req
        = (Resp.err 400, ⟨some g, some v, reg⟩) := by
  by_cases h1 : pyStrip req.name = ""
  · constructor <;> simp [generateActivityIndex, generateResidentialIndex, h1]
  · rcases h with h2 | h2 | h2
    · constructor <;> simp [generateActivityIndex, generateResidentialIndex, h1, h2]
    · exact absurd h2 h1
    · by_cases hv : req.varList = []
      · constructor <;> simp [generateActivityIndex, generateResidentialIndex, h1, hv]
      · constructor <;>
          simp [generateActivityIndex, generateResidentialIndex, h1, hv, h2]

theorem invalid_input_returns_400_without_mutation_witness :
    ((([] : List String) = [] ∨ pyStrip "My Index" = ""
        ∨ sanitizeName (pyStrip "My Index") = "")
      ∧ generateActivityIndex ⟨some gdfIdemExample, some visTableExample, []⟩ ⟨"My Index", []⟩
          = (Resp.err 400, ⟨some gdfIdemExample, some visTableExample, []⟩)
      ∧ generateResidentialIndex ⟨some gdfIdemExample, some visTableExample, []⟩ ⟨"My Index", []⟩
          = (Resp.err 400, ⟨some gdfIdemExample, some visTableExample, []⟩)) :=
  ⟨Or.inl rfl,
   (invalid_input_returns_400_without_mutation gdfIdemExample visTableExample []
      ⟨"My Index", []⟩ (Or.inl rfl)).1,
   (invalid_input_returns_400_without_mutation gdfIdemExample visTableExample []
      ⟨"My Index", []⟩ (Or.inl rfl)).2⟩

/- ### C9: status codes of data routes when data is not loaded -/

/-- C9 counterexample: in the `app_local.py` variant all three data
routes answer 500, not 503, when the Base Geo Table failed to load. -/
theorem local_routes_not_503_counterexample :
    geojsonRouteLocal ⟨none, none, []⟩ = Resp.err 500
    ∧ (generateIndexLocal ⟨none, none, []⟩ ⟨"X", ["OZONE"]⟩).1 = Resp.err 500
    ∧ (generateResidentialIndexLocal ⟨none, none, []⟩ ⟨"X", ["OZONE"]⟩).1 = Resp.err 500
    ∧ Resp.err 500 ≠ Resp.err 503 :=
  ⟨rfl, rfl, rfl, by decide⟩

/-- C9 amended.  With the source data not loaded, the data routes of
`app.py` answer 503 while the corresponding routes of `app_local.py`
answer 500. -/
theorem data_not_loaded_statuses (v : Option VisTable) (reg : List String)
    (req : GenRequest) :
    geojsonRouteMain ⟨none, v, reg⟩ = Resp.err 503
    ∧ (generateActivityIndex ⟨none, v, reg⟩ req).1 = Resp.err 503
    ∧ (generateResidentialIndex ⟨none, v, reg⟩ req).1 = Resp.err 503
    ∧ geojsonRouteLocal ⟨none, v, reg⟩ = Resp.err 500
    ∧ (generateIndexLocal ⟨none, v, reg⟩ req).1 = Resp.err 500
    ∧ (generateResidentialIndexLocal ⟨none, v, reg⟩ req).1 = Resp.err 500 := by
  cases v <;> exact ⟨rfl, rfl, rfl, rfl, rfl, rfl⟩

/- ### C6: non-convertible tract keys and the merge -/

/-- C6 counterexample: a base row whose original key `"abc"` fails
numeric conversion is matched during the merge to a right-side row whose
key `"xyz"` also fails conversion — both become the sentinel `"<NA>"`,
which joins — so such rows are not null-keyed never-joining rows. -/
theorem nonconvertible_keys_join_counterexample :
    normalizeKey "abc" = "<NA>"
    ∧ normalizeKey "xyz" = "<NA>"
    ∧ leftMergeRows [⟨normalizeKey "abc", []⟩] [(normalizeKey "xyz", Val.num 5)] "idx_ACT"
        = [⟨"<NA>", [("idx_ACT", Val.num 5)]⟩]
    ∧ Val.num 5 ≠ Val.null :=
  ⟨by decide, by decide, by decide, by decide⟩

theorem digitChar_lt_ne (d : Nat) (hd : d < 10) : digitChar d ≠ '<' := by
  interval_cases d <;> decide

theorem natDigitsAux_head (fuel n : Nat) (acc : List Char) :
    ∃ d rest, d < 10 ∧ natDigitsAux (fuel + 1) n acc = digitChar d :: rest := by
  induction fuel generalizing n acc with
  | zero =>
    by_cases h : n < 10
    · exact ⟨n, acc, h, by simp [natDigitsAux, h]⟩
    · exact ⟨n % 10, acc, Nat.mod_lt _ (by norm_num), by simp [natDigitsAux, h]⟩
  | succ fuel ih =>
    by_cases h : n < 10
    · exact ⟨n, acc, h, by simp [natDigitsAux, h]⟩
    · obtain ⟨d, rest, hd, hrest⟩ := ih (n / 10) (digitChar (n % 10) :: acc)
      refine ⟨d, rest, hd, ?_⟩
      rw [show natDigitsAux (fuel + 1 + 1) n acc
          = natDigitsAux (fuel + 1) (n / 10) (digitChar (n % 10) :: acc) by
        simp [natDigitsAux, h]]
      exact hrest

/-- The string of an `Int64` tract key is never the missing-value
sentinel `"<NA>"`: it starts with a minus sign or a decimal digit. -/
theorem intStr_ne_sentinel (i : Int) : intStr i ≠ "<NA>" := by
  unfold intStr
  by_cases h : i < 0
  · rw [if_pos h]
    intro hEq
    have hdata := congrArg String.data hEq
    simp only [String.data] at hdata
    injection hdata with h1 _
    exact absurd h1 (by decide)
  · rw [if_neg h]
    unfold natStr
    obtain ⟨d, rest, hd, hrest⟩ := natDigitsAux_head i.natAbs i.natAbs []
    rw [hrest]
    intro hEq
    have hdata := congrArg String.data hEq
    simp only [String.data] at hdata
    injection hdata with h1 _
    exact absurd h1 (digitChar_lt_ne d hd)

theorem normalizeKey_convertible_ne_sentinel (u : String) (n : Int)
    (hu : parseTract? u = some n) : normalizeKey u ≠ "<NA>" := by
  unfold normalizeKey
  rw [hu]
  exact intStr_ne_sentinel n

/-- C6 amended.  A tract key that fails numeric conversion becomes the
sentinel string `"<NA>"` (not a null that can never join): its
normalized key differs from the normalized key of every convertible
key, so in a merge it never matches a convertible-keyed row (that row
pairing yields null), but any two non-convertible keys on opposite
sides of the merge coincide on the sentinel and do join. -/
theorem nonconvertible_keys_sentinel_join
    (s t : String) (hs : parseTract? s = none) (ht : parseTract? t = none)
    (attrs : List (String × Val)) (v : Val) (col : String) :
    normalizeKey s = "<NA>"
    ∧ (∀ u n, parseTract? u = some n → normalizeKey s ≠ normalizeKey u)
    ∧ (∀ u n v', parseTract? u = some n →
        leftMergeRows [⟨normalizeKey s, attrs⟩] [(normalizeKey u, v')] col
          = [⟨normalizeKey s, attrs ++ [(col, Val.null)]⟩])
    ∧ normalizeKey s = normalizeKey t
    ∧ leftMergeRows [⟨normalizeKey s, attrs⟩] [(normalizeKey t, v)] col
        = [⟨"<NA>", attrs ++ [(col, v)]⟩] := by
  have h1 : normalizeKey s = "<NA>" := by unfold normalizeKey; rw [hs]
  have h2 : normalizeKey t = "<NA>" := by unfold normalizeKey; rw [ht]
  have hnc : ∀ u n, parseTract? u = some n → normalizeKey s ≠ normalizeKey u := by
    intro u n hu
    rw [h1]
    exact fun hh => normalizeKey_convertible_ne_sentinel u n hu hh.symm
  refine ⟨h1, hnc, ?_, by rw [h1, h2], ?_⟩
  · intro u n v' hu
    unfold leftMergeRows
    rw [List.flatMap_cons, List.flatMap_nil, List.append_nil,
      mergeOneRow_no_match _ _ _ (by
        simp only [List.map_cons, List.map_nil, List.mem_singleton]
        exact hnc u n hu)]
  · rw [h1, h2]
    simp [leftMergeRows, mergeOneRow]

theorem nonconvertible_keys_sentinel_join_witness :
    (parseTract? "abc" = none)
    ∧ (parseTract? "xyz" = none)
    ∧ (normalizeKey "abc" = "<NA>"
      ∧ (∀ u n, parseTract? u = some n → normalizeKey "abc" ≠ normalizeKey u)
      ∧ (∀ u n v', parseTract? u = some n →
          leftMergeRows [⟨normalizeKey "abc", []⟩] [(normalizeKey u, v')] "c"
            = [⟨normalizeKey "abc", [] ++ [("c", Val.null)]⟩])
      ∧ normalizeKey "abc" = normalizeKey "xyz"
      ∧ leftMergeRows [⟨normalizeKey "abc", []⟩] [(normalizeKey "xyz", Val.num 5)] "c"
          = [⟨"<NA>", [] ++ [("c", Val.num 5)]⟩])
    ∧ (parseTract? "123" = some 123)
    ∧ normalizeKey "abc" ≠ normalizeKey "123" :=
  ⟨by decide, by decide,
   nonconvertible_keys_sentinel_join "abc" "xyz" (by decide) (by decide) [] (Val.num 5) "c",
   by decide,
   (nonconvertible_keys_sentinel_join "abc" "xyz" (by decide) (by decide) []
      (Val.num 5) "c").2.1 "123" 123 (by decide)⟩

/- ### C7: infinity coercion -/

/-- C7 counterexample: a `+inf` value in a selected residential z-score
column propagates as `+inf` into the generated `_RES` column — the
residential path performs no infinity-to-null coercion. -/
theorem residential_inf_propagates_counterexample :
    ((generateResidentialIndex
        ⟨some ⟨["Origin_tract", "OZONE_zscore_o"], [⟨"1", [("OZONE_zscore_o", Val.pinf)]⟩]⟩,
         none, []⟩ ⟨"inftest", ["OZONE"]⟩).2.gdf.map
      (fun g => g.rows.map (fun r => getCol r.attrs "inftest_RES")))
      = some [Val.pinf]
    ∧ Val.pinf ≠ Val.null :=
  ⟨by decide, by decide⟩

/-- C7 amended.  Only the activity path coerces infinities to null: an
activity index value produced by `finalizeActivity` is never `±inf`
(the aggregated sum is passed through the inf-to-null replacement before
scaling), while the residential path has no such coercion and a `+inf`
selected value propagates into the generated residential column. -/
theorem inf_coercion_activity_only
    (agg : List (String × Val)) (n : Nat) (p : String × Val)
    (hp : p ∈ finalizeActivity agg n) :
    (p.2 ≠ Val.pinf ∧ p.2 ≠ Val.ninf)
    ∧ residentialValues ⟨["OZONE_zscore_o"], [⟨"1", [("OZONE_zscore_o", Val.pinf)]⟩]⟩
        ["OZONE_zscore_o"] = [Val.pinf] := by
  constructor
  · unfold finalizeActivity at hp
    by_cases hn : 0 < n
    · rw [if_pos hn] at hp
      obtain ⟨q, hq, rfl⟩ := List.mem_map.mp hp
      unfold finalizeVal
      cases q.2 <;> simp [Val.replaceInfWithNull, Val.divNat, Val.mul]
    · rw [if_neg hn] at hp
      obtain ⟨q, hq, rfl⟩ := List.mem_map.mp hp
      simp
  · decide

theorem inf_coercion_activity_only_witness :
    ((("1", Val.null) ∈ finalizeActivity [("1", Val.pinf)] 1)
      ∧ ((("1", Val.null).2 ≠ Val.pinf ∧ ("1", Val.null).2 ≠ Val.ninf)
        ∧ residentialValues ⟨["OZONE_zscore_o"], [⟨"1", [("OZONE_zscore_o", Val.pinf)]⟩]⟩
            ["OZONE_zscore_o"] = [Val.pinf])) :=
  ⟨by decide, inf_coercion_activity_only [("1", Val.pinf)] 1 ("1", Val.null) (by decide)⟩

/- ### C3: a row-count-changing merge is still published as success -/

/-- The failing input for C3: the Visitation Table has the raw origin
keys `"2"` and `"2.0"`, which are distinct `GROUP BY` groups but
normalize to the same tract key `"2"`, so the aggregation result carries
a duplicate key and the left merge duplicates the matching base row. -/
def dupKeyState : AppState :=
  ⟨some ⟨["Origin_tract"], [⟨"2", []⟩]⟩,
   some ⟨["Origin_tract", "perc_visit", "OZONE_zscore_d"],
    [⟨"2", Val.num 1, [("OZONE_zscore_d", Val.num 1)]⟩,
     ⟨"2.0", Val.num 1, [("OZONE_zscore_d", Val.num 2)]⟩]⟩,
   []⟩

unseal Rat.add Rat.mul Rat.inv in
/-- C3.  Evaluating `/generate_index` at the failing input: the Base Geo
Table has 1 row before the merge and 2 rows afterwards, yet the route
answers success and publishes the corrupted table — `app.py` line 579
only prints a warning on a row-count change and `app_local.py` has no
row-count check at all, contradicting the spec's requirement to raise. -/
theorem merge_row_count_change_returned_ok :
    ((dupKeyState.gdf.map (fun t => t.rows.length)) = some 1)
    ∧ (generateActivityIndex dupKeyState ⟨"dup", ["OZONE"]⟩).1 = Resp.ok
    ∧ ((generateActivityIndex dupKeyState ⟨"dup", ["OZONE"]⟩).2.gdf.map
        (fun t => t.rows.length)) = some 2
    ∧ (2 : Nat) ≠ 1 :=
  ⟨by decide, by decide, by decide, by decide⟩
